import Mathlib

/-!
# Shallow embedding of `main.py` (ping-mon5api)

This file embeds the heartbeat worker of `src/main.py` — the class
`PingWorker` (its `run` loop: send-with-retries, exponential backoff,
interval countdown, cooperative stop flag) and the controller handler
`MainWindow.on_start` — as executable Lean definitions, and proves the
spec's testable properties about them.

Modelling conventions:
* Python strings are `List Char`; slicing `s[:n]` is `List.take n`.
* Time is measured in whole seconds; `Event.wait(1)` advances time by one
  second unless the stop flag is already set (then it returns at once).
* The stop event is a monotone flag: `stopTime = some s` means the flag is
  set from second `s` on; `none` means it is never set.
* One transport attempt is a function from the attempt number to either an
  exception message (`Except.error`) or a `(status code, body string)`
  pair (`Except.ok`); a full run takes a cycle-indexed family of these.
* Everything the worker does is recorded in a trace of `(time, Action)`
  pairs: the four distinct `status_signal.emit` sites, the backoff wait
  block (with the number of seconds actually waited), each
  `countdown_signal.emit`, and the final `finished_signal.emit`. The
  delivery loop additionally records which attempt numbers called the
  transport.
-/

namespace PingMon

/-- `INTERVAL = 300` from main.py line 16. -/
def INTERVAL : Nat := 300

/-- `MAX_RETRIES = 3` from main.py line 17. -/
def MAX_RETRIES : Nat := 3

/-- `INITIAL_RETRY_DELAY = 2` from main.py line 18. -/
def INITIAL_RETRY_DELAY : Nat := 2

/-- One observable action of the worker: each corresponds to a distinct
emission/wait site in `PingWorker.run`. -/
inductive Action where
  | statusSuccess (code : Nat) (body : List Char)
  | statusRejected (code : Nat) (body : List Char)
  | statusError (attempt : Nat) (msg : List Char)
  | statusAllFailed
  | backoffWait (waited : Nat)
  | countdownTick (remaining : Nat)
  | workerDone
deriving DecidableEq

/-- Boolean classifiers for the action constructors. -/
def isSuccessA : Action → Bool
  | Action.statusSuccess _ _ => true
  | _ => false

def isRejectedA : Action → Bool
  | Action.statusRejected _ _ => true
  | _ => false

def isErrorA : Action → Bool
  | Action.statusError _ _ => true
  | _ => false

def isAllFailedA : Action → Bool
  | Action.statusAllFailed => true
  | _ => false

def isBackoffA : Action → Bool
  | Action.backoffWait _ => true
  | _ => false

def isTickA : Action → Bool
  | Action.countdownTick _ => true
  | _ => false

def isDoneA : Action → Bool
  | Action.workerDone => true
  | _ => false

/-- Whether the stop event is set at second `t` (monotone flag set at
`stopTime`). -/
def stopFlag (stopTime : Option Nat) (t : Nat) : Bool :=
  match stopTime with
  | none => false
  | some s => decide (s ≤ t)

/-- `self._stop_event.wait(1)`: blocks one second, returning at once when
the flag is already set. -/
def wait1 (stopTime : Option Nat) (t : Nat) : Nat :=
  if stopFlag stopTime t then t else t + 1

/-- The body-shortening of main.py line 62:
`(body_str[:300] + "...") if len(body_str) > 300 else body_str`. -/
def displayBody (s : List Char) : List Char :=
  if s.length > 300 then s.take 300 ++ ('.' :: '.' :: '.' :: []) else s

/-- The backoff delay of main.py lines 77-79:
`delay = INITIAL_RETRY_DELAY * (2 ** (attempt - 1)); if delay > 30: delay = 30`. -/
def backoffDelay (attempt : Nat) : Nat :=
  let delay := INITIAL_RETRY_DELAY * 2 ^ (attempt - 1)
  if delay > 30 then 30 else delay

/-- The interruptible backoff wait of main.py lines 81-84:
`waited = 0; while waited < delay and not stop: wait(1); waited += 1`.
Argument is the number of loop iterations still allowed (`delay - waited`);
returns the time after the loop and the final value of `waited`
accumulated by these iterations. -/
def backoffGo (stopTime : Option Nat) : Nat → Nat → Nat × Nat
  | 0, t => (t, 0)
  | r + 1, t =>
    if stopFlag stopTime t then (t, 0)
    else
      let t' := wait1 stopTime t
      let p := backoffGo stopTime r t'
      (p.1, p.2 + 1)

/-- Result of the delivery phase (the `for attempt in range(1, MAX_RETRIES+1)`
loop of main.py lines 47-84): end time, the local `success` flag, the
trace of emitted/waited actions, and the attempt numbers that actually
called the transport. -/
structure DeliveryResult where
  endTime : Nat
  success : Bool
  actions : List (Nat × Action)
  calls : List Nat
deriving DecidableEq

/-- One transport attempt, main.py line 53: either an exception message or
`(resp.status_code, body_str)`. -/
def Transport : Type := Nat → Except (List Char) (Nat × List Char)

/-- The delivery loop of main.py lines 47-84, from attempt number `attempt`
with `remaining` iterations left. Per iteration: break if the stop event
is set; otherwise call the transport. On a response, shorten the body,
emit the success message (2xx) or the non-2xx message, set `success`,
break. On an exception, emit the error message with the attempt number
and `str(e)[:200]`, then wait out the (capped) exponential backoff,
interruptibly. -/
def deliveryGo (transport : Transport) (stopTime : Option Nat) :
    Nat → Nat → Nat → DeliveryResult
  | 0, _, t => ⟨t, false, [], []⟩
  | remaining + 1, attempt, t =>
    if stopFlag stopTime t then ⟨t, false, [], []⟩
    else
      match transport attempt with
      | Except.ok (code, body) =>
        let db := displayBody body
        if 200 ≤ code ∧ code < 300 then
          ⟨t, true, [(t, Action.statusSuccess code db)], [attempt]⟩
        else
          ⟨t, true, [(t, Action.statusRejected code db)], [attempt]⟩
      | Except.error e =>
        let d := backoffDelay attempt
        let p := backoffGo stopTime d t
        let r := deliveryGo transport stopTime remaining (attempt + 1) p.1
        ⟨r.endTime, r.success,
          (t, Action.statusError attempt (e.take 200))
            :: (t, Action.backoffWait p.2) :: r.actions,
          attempt :: r.calls⟩

/-- The whole delivery phase: attempts start at 1, bounded by `MAX_RETRIES`. -/
def deliveryPhase (transport : Transport) (stopTime : Option Nat) (t : Nat) :
    DeliveryResult :=
  deliveryGo transport stopTime MAX_RETRIES 1 t

/-- The countdown of main.py lines 91-97:
`while remaining > 0 and not stop: emit(remaining); wait(1); remaining -= 1`.
Returns the tick trace and the time after the loop. -/
def countdownGo (stopTime : Option Nat) : Nat → Nat → List (Nat × Action) × Nat
  | 0, t => ([], t)
  | remaining + 1, t =>
    if stopFlag stopTime t then ([], t)
    else
      let t' := wait1 stopTime t
      let p := countdownGo stopTime remaining t'
      ((t, Action.countdownTick (remaining + 1)) :: p.1, p.2)

/-- One iteration of the outer `while` loop (one cycle): delivery with
retries, the `if not success` total-failure report (main.py lines 86-88),
then the interval countdown. -/
def runCycle (transport : Transport) (stopTime : Option Nat) (t : Nat) :
    List (Nat × Action) × Nat :=
  let d := deliveryPhase transport stopTime t
  let failActs := if d.success then [] else [(d.endTime, Action.statusAllFailed)]
  let p := countdownGo stopTime INTERVAL d.endTime
  (d.actions ++ failActs ++ p.1, p.2)

/-- The outer `while not self._stop_event.is_set()` loop of main.py line 44,
fuelled by a bound on the number of cycles; `none` means the bound was
too small to reach the stop condition. -/
def runLoop (transport : Nat → Transport) (stopTime : Option Nat) :
    Nat → Nat → Nat → Option (List (Nat × Action) × Nat)
  | 0, _, t => if stopFlag stopTime t then some ([], t) else none
  | fuel + 1, cycle, t =>
    if stopFlag stopTime t then some ([], t)
    else
      let p := runCycle (transport cycle) stopTime t
      match runLoop transport stopTime fuel (cycle + 1) p.2 with
      | none => none
      | some q => some (p.1 ++ q.1, q.2)

/-- `PingWorker.run` in full: the outer loop followed by the single
`finished_signal.emit()` of main.py line 100. -/
def runWorker (transport : Nat → Transport) (stopTime : Option Nat)
    (fuel t0 : Nat) : Option (List (Nat × Action)) :=
  match runLoop transport stopTime fuel 0 t0 with
  | none => none
  | some p => some (p.1 ++ [(p.2, Action.workerDone)])

/-! ## Controller (`MainWindow.on_start`, main.py lines 162-181) -/

/-- Python `str.isspace` on the ASCII whitespace characters stripped by
`str.strip()` with no argument. -/
def isPySpace (c : Char) : Bool :=
  c == ' ' || c == '\t' || c == '\n' || c == '\r' ||
    c == Char.ofNat 11 || c == Char.ofNat 12

/-- Python `str.strip()`: removes leading and trailing whitespace. -/
def pyStrip (s : List Char) : List Char :=
  ((s.dropWhile isPySpace).reverse.dropWhile isPySpace).reverse

/-- Status-label text `"IDENTIFIER وارد نشده"` (main.py line 166). -/
def MSG_NO_IDENTIFIER : List Char := "IDENTIFIER وارد نشده".data

/-- Status-label text `"در حال اجراست"` (main.py line 169). -/
def MSG_ALREADY_RUNNING : List Char := "در حال اجراست".data

/-- Status-label text `"در حال اجرا..."` (main.py line 181). -/
def MSG_STARTING : List Char := "در حال اجرا...".data

/-- The controller state touched by `on_start`: the (at most one) live
worker with its identifier, the status label, and the enabled state of
the start/stop buttons and the identifier field. -/
structure UIState where
  worker : Option (List Char)
  statusText : List Char
  startEnabled : Bool
  stopEnabled : Bool
  editEnabled : Bool
deriving DecidableEq

/-- `MainWindow.on_start` (main.py lines 162-181): strip the identifier
field; bail out with a message if it is empty or a worker already exists;
otherwise create and start the worker and flip the affordances. -/
def on_start (st : UIState) (text : List Char) : UIState :=
  let identifier := pyStrip text
  if identifier = [] then { st with statusText := MSG_NO_IDENTIFIER }
  else
    match st.worker with
    | some _ => { st with statusText := MSG_ALREADY_RUNNING }
    | none =>
      { worker := some identifier
        statusText := MSG_STARTING
        startEnabled := false
        stopEnabled := true
        editEnabled := false }

/-! ## Trace observers and concrete transports -/

/-- Number of backoff-wait actions in a trace that actually waited
(at least one second). -/
def posBackoffCount (acts : List (Nat × Action)) : Nat :=
  acts.countP fun p =>
    match p.2 with
    | Action.backoffWait w => decide (0 < w)
    | _ => false

/-- The seconds waited by each backoff-wait action of a trace, in order. -/
def backoffWaitsOf (acts : List (Nat × Action)) : List Nat :=
  acts.filterMap fun p =>
    match p.2 with
    | Action.backoffWait w => some w
    | _ => none

/-- A transport whose every attempt raises (e.g. `requests` timing out). -/
def timeoutTransport : Transport := fun _ => Except.error "timeout".data

/-- A transport whose every attempt returns HTTP 200 with an empty body. -/
def okTransport : Transport := fun _ => Except.ok (200, [])

/-- A transport whose every attempt returns HTTP 404 with an empty body. -/
def rejectTransport : Transport := fun _ => Except.ok (404, [])

/-! ## Computation lemmas -/

lemma backoffDelay_one : backoffDelay 1 = 2 := rfl

lemma backoffDelay_two : backoffDelay 2 = 4 := rfl

lemma backoffDelay_three : backoffDelay 3 = 8 := rfl

/-- With the stop event never set, the backoff wait runs its full delay. -/
lemma backoffGo_none (d t : Nat) : backoffGo none d t = (t + d, d) := by
  induction d generalizing t with
  | zero => rfl
  | succ d ih =>
    simp [backoffGo, stopFlag, wait1, ih]
    omega

/-- With the stop event never set, the countdown emits
`rem, rem-1, …, 1`, one tick per second. -/
lemma countdownGo_none (rem t : Nat) :
    countdownGo none rem t =
      ((List.range rem).map (fun i => (t + i, Action.countdownTick (rem - i))),
        t + rem) := by
  induction rem generalizing t with
  | zero => rfl
  | succ rem ih =>
    simp [countdownGo, stopFlag, wait1, ih, List.range_succ_eq_map, List.map_map]
    exact ⟨fun a _ => by omega, by omega⟩

/-- A countdown entered with the stop flag already set does nothing. -/
lemma countdownGo_stopped {stopTime : Option Nat} {t : Nat}
    (h : stopFlag stopTime t = true) (rem : Nat) :
    countdownGo stopTime rem t = ([], t) := by
  cases rem with
  | zero => rfl
  | succ rem => simp [countdownGo, h]

/-- Every countdown action is a tick, emitted at a second where the stop
flag was still unset. -/
lemma countdownGo_mem (stopTime : Option Nat) (rem t : Nat) :
    ∀ p ∈ (countdownGo stopTime rem t).1,
      (∃ n, p.2 = Action.countdownTick n) ∧ stopFlag stopTime p.1 = false := by
  induction rem generalizing t with
  | zero => intro p hp; simp [countdownGo] at hp
  | succ rem ih =>
    intro p hp
    rw [countdownGo] at hp
    by_cases hs : stopFlag stopTime t
    · simp [hs] at hp
    · simp only [hs, Bool.false_eq_true, if_false, List.mem_cons] at hp
      rcases hp with rfl | hp
      · exact ⟨⟨rem + 1, rfl⟩, by simpa using hs⟩
      · exact ih _ p hp

/-- Time never runs backwards during a backoff wait. -/
lemma backoffGo_time_le (stopTime : Option Nat) (d t : Nat) :
    t ≤ (backoffGo stopTime d t).1 := by
  induction d generalizing t with
  | zero => exact Nat.le_refl t
  | succ d ih =>
    rw [backoffGo]
    by_cases hs : stopFlag stopTime t
    · simp [hs]
    · simp only [hs, Bool.false_eq_true, if_false]
      calc t ≤ wait1 stopTime t := by unfold wait1; split <;> omega
        _ ≤ _ := ih _

/-- Time never runs backwards during the delivery phase. -/
lemma deliveryGo_time_le (tr : Transport) (stopTime : Option Nat)
    (rem : Nat) : ∀ a t, t ≤ (deliveryGo tr stopTime rem a t).endTime := by
  induction rem with
  | zero => intro a t; exact Nat.le_refl t
  | succ rem ih =>
    intro a t
    rw [deliveryGo]
    by_cases hs : stopFlag stopTime t
    · simp [hs]
    · simp only [hs, Bool.false_eq_true, if_false]
      cases htr : tr a with
      | ok pr =>
        rcases pr with ⟨code, body⟩
        by_cases h2 : 200 ≤ code ∧ code < 300 <;> simp [h2]
      | error e =>
        simp only []
        calc t ≤ (backoffGo stopTime (backoffDelay a) t).1 :=
              backoffGo_time_le _ _ _
          _ ≤ _ := ih _ _

/-- Time never runs backwards during the countdown. -/
lemma countdownGo_time_le (stopTime : Option Nat) (rem : Nat) :
    ∀ t, t ≤ (countdownGo stopTime rem t).2 := by
  induction rem with
  | zero => intro t; exact Nat.le_refl t
  | succ rem ih =>
    intro t
    rw [countdownGo]
    by_cases hs : stopFlag stopTime t
    · simp [hs]
    · simp only [hs, Bool.false_eq_true, if_false]
      calc t ≤ wait1 stopTime t := by unfold wait1; split <;> omega
        _ ≤ _ := ih _

/-- Every delivery-phase action is a status message or a backoff wait—
never a countdown tick and never the finish event. -/
lemma deliveryGo_mem (tr : Transport) (stopTime : Option Nat) (rem : Nat) :
    ∀ a t, ∀ p ∈ (deliveryGo tr stopTime rem a t).actions,
      isTickA p.2 = false ∧ isDoneA p.2 = false := by
  induction rem with
  | zero => intro a t p hp; simp [deliveryGo] at hp
  | succ rem ih =>
    intro a t p hp
    rw [deliveryGo] at hp
    by_cases hs : stopFlag stopTime t
    · simp [hs] at hp
    · simp only [hs, Bool.false_eq_true, if_false] at hp
      cases htr : tr a with
      | ok pr =>
        rcases pr with ⟨code, body⟩
        rw [htr] at hp
        by_cases h2 : 200 ≤ code ∧ code < 300
        · simp [h2] at hp
          subst hp
          exact ⟨rfl, rfl⟩
        · simp [h2] at hp
          subst hp
          exact ⟨rfl, rfl⟩
      | error e =>
        rw [htr] at hp
        simp only [List.mem_cons] at hp
        rcases hp with rfl | rfl | hp
        · exact ⟨rfl, rfl⟩
        · exact ⟨rfl, rfl⟩
        · exact ih _ _ p hp

/-- Every action of one cycle is not the finish event, and any countdown
tick in it was emitted while the stop flag was still unset. -/
lemma runCycle_mem (tr : Transport) (stopTime : Option Nat) (t : Nat) :
    ∀ p ∈ (runCycle tr stopTime t).1,
      isDoneA p.2 = false ∧ (isTickA p.2 = true → stopFlag stopTime p.1 = false) := by
  intro p hp
  rw [runCycle] at hp
  simp only [List.mem_append] at hp
  rcases hp with (hp | hp) | hp
  · obtain ⟨ht, hd⟩ := deliveryGo_mem tr stopTime MAX_RETRIES 1 t p hp
    exact ⟨hd, fun h => absurd h (by rw [ht]; exact Bool.false_ne_true)⟩
  · rcases hq : (deliveryPhase tr stopTime t).success with _ | _ <;> rw [hq] at hp
    · simp at hp
      subst hp
      exact ⟨rfl, fun h => absurd h (by exact Bool.false_ne_true)⟩
    · simp at hp
  · obtain ⟨⟨n, hn⟩, hstop⟩ := countdownGo_mem stopTime INTERVAL _ p hp
    rw [hn]
    exact ⟨rfl, fun _ => hstop⟩

/-- Accumulated form of `runCycle_mem` over the whole outer loop. -/
lemma runLoop_mem (tr : Nat → Transport) (stopTime : Option Nat) (fuel : Nat) :
    ∀ c t res, runLoop tr stopTime fuel c t = some res →
      ∀ p ∈ res.1,
        isDoneA p.2 = false ∧
          (isTickA p.2 = true → stopFlag stopTime p.1 = false) := by
  induction fuel with
  | zero =>
    intro c t res h p hp
    rw [runLoop] at h
    by_cases hs : stopFlag stopTime t
    · rw [if_pos hs] at h
      obtain rfl := Option.some.inj h
      simp at hp
    · rw [if_neg hs] at h
      exact absurd h (by simp)
  | succ fuel ih =>
    intro c t res h p hp
    rw [runLoop] at h
    by_cases hs : stopFlag stopTime t
    · rw [if_pos hs] at h
      obtain rfl := Option.some.inj h
      simp at hp
    · rw [if_neg hs] at h
      simp only [] at h
      rcases hrec : runLoop tr stopTime fuel (c + 1) (runCycle (tr c) stopTime t).2
        with _ | q <;> rw [hrec] at h
      · exact absurd h (by simp)
      · obtain rfl := Option.some.inj h
        simp only [List.mem_append] at hp
        rcases hp with hp | hp
        · exact runCycle_mem _ _ _ p hp
        · exact ih _ _ _ hrec p hp

/-- Entering a cycle with the stop flag unset either advances time or ends
with the stop flag set. -/
lemma runCycle_progress (tr : Transport) (s t : Nat)
    (_h : stopFlag (some s) t = false) :
    t + 1 ≤ (runCycle tr (some s) t).2 ∨ s ≤ (runCycle tr (some s) t).2 := by
  rw [runCycle]
  simp only []
  by_cases h1 : stopFlag (some s) (deliveryPhase tr (some s) t).endTime
  · right
    rw [countdownGo_stopped h1]
    simpa [stopFlag] using h1
  · left
    have ht : t ≤ (deliveryPhase tr (some s) t).endTime :=
      deliveryGo_time_le tr (some s) MAX_RETRIES 1 t
    have : (deliveryPhase tr (some s) t).endTime + 1 ≤
        (countdownGo (some s) INTERVAL (deliveryPhase tr (some s) t).endTime).2 := by
      rw [show INTERVAL = 299 + 1 from rfl, countdownGo]
      simp only [h1, Bool.false_eq_true, if_false]
      have := countdownGo_time_le (some s) 299
        (wait1 (some s) (deliveryPhase tr (some s) t).endTime)
      unfold wait1 at this ⊢
      rw [if_neg (by simp [h1])] at this ⊢
      omega
    omega

/-- With the stop time at most `t + fuel`, `fuel` cycles of fuel are enough
for the outer loop to observe the stop flag and terminate. -/
lemma runLoop_total (tr : Nat → Transport) (s : Nat) (fuel : Nat) :
    ∀ c t, s ≤ t + fuel → (runLoop tr (some s) fuel c t).isSome := by
  induction fuel with
  | zero =>
    intro c t hle
    rw [runLoop, if_pos (by simp [stopFlag]; omega)]
    rfl
  | succ fuel ih =>
    intro c t hle
    rw [runLoop]
    by_cases hs : stopFlag (some s) t
    · rw [if_pos hs]; rfl
    · rw [if_neg hs]
      simp only []
      have hprog := runCycle_progress (tr c) s t (by simpa using hs)
      have hnext : s ≤ (runCycle (tr c) (some s) t).2 + fuel := by
        rcases hprog with hadv | hstop
        · omega
        · omega
      have := ih (c + 1) (runCycle (tr c) (some s) t).2 hnext
      rcases hrec : runLoop tr (some s) fuel (c + 1) (runCycle (tr c) (some s) t).2
        with _ | q
      · rw [hrec] at this; exact absurd this (by simp)
      · rfl

/-! ## Claims -/

/-- C3: for every attempt count n in [1,3], the backoff delay after a
failed attempt n equals `min(30, 2 * 2^(n-1))` seconds — 2s, 4s, 8s for
n = 1, 2, 3 — and the 30-second cap is never the binding value there
(the delay always equals the uncapped `2 * 2^(n-1)`). -/
theorem claim_C3 (n : Nat) (h1 : 1 ≤ n) (h3 : n ≤ 3) :
    backoffDelay n = min 30 (2 * 2 ^ (n - 1)) ∧
      backoffDelay n = 2 * 2 ^ (n - 1) ∧
      backoffDelay 1 = 2 ∧ backoffDelay 2 = 4 ∧ backoffDelay 3 = 8 := by
  interval_cases n <;> exact ⟨by decide, by decide, rfl, rfl, rfl⟩

theorem claim_C3_witness :
    (1 ≤ 2 ∧ 2 ≤ 3) ∧
      (backoffDelay 2 = min 30 (2 * 2 ^ (2 - 1)) ∧
        backoffDelay 2 = 2 * 2 ^ (2 - 1) ∧
        backoffDelay 1 = 2 ∧ backoffDelay 2 = 4 ∧ backoffDelay 3 = 8) :=
  ⟨⟨by decide, by decide⟩, claim_C3 2 (by decide) (by decide)⟩

/-- C7: an interval phase never interrupted by cancellation emits exactly
the ticks 300, 299, …, 1 — the tick with value `INTERVAL - i` is emitted
at second `t + i`, i.e. before the corresponding 1-second wait — and the
phase ends 300 seconds after it began. -/
theorem claim_C7 (t : Nat) :
    (countdownGo none INTERVAL t).1 =
      (List.range INTERVAL).map
        (fun i => (t + i, Action.countdownTick (INTERVAL - i))) ∧
      (countdownGo none INTERVAL t).2 = t + INTERVAL := by
  rw [countdownGo_none]
  exact ⟨rfl, rfl⟩

/-- C9: the displayed body equals the original string when its length is
at most 300, and the first 300 characters followed by `"..."` otherwise. -/
theorem claim_C9 (s : List Char) :
    (s.length ≤ 300 → displayBody s = s) ∧
      (300 < s.length →
        displayBody s = s.take 300 ++ ('.' :: '.' :: '.' :: [])) := by
  constructor
  · intro h
    rw [displayBody, if_neg (by omega)]
  · intro h
    rw [displayBody, if_pos (by omega)]

theorem claim_C9_witness :
    ('o' :: 'k' :: []).length ≤ 300 ∧
      displayBody ('o' :: 'k' :: []) = ('o' :: 'k' :: []) :=
  ⟨by decide, (claim_C9 ('o' :: 'k' :: [])).1 (by decide)⟩

/-- C8: `on_start` creates a worker iff the stripped identifier is
non-empty and no worker is live; a blank identifier or a live worker only
changes the status message, never the worker slot, so at most one worker
exists at a time. -/
theorem claim_C8 (st : UIState) (text : List Char) :
    ((on_start st text).worker ≠ st.worker ↔
        pyStrip text ≠ [] ∧ st.worker = none) ∧
      (pyStrip text ≠ [] → st.worker = none →
        on_start st text =
          ⟨some (pyStrip text), MSG_STARTING, false, true, false⟩) ∧
      (pyStrip text = [] →
        on_start st text = { st with statusText := MSG_NO_IDENTIFIER }) ∧
      (pyStrip text ≠ [] → ∀ w, st.worker = some w →
        on_start st text = { st with statusText := MSG_ALREADY_RUNNING }) := by
  by_cases he : pyStrip text = []
  · refine ⟨?_, fun hne => absurd he hne, fun _ => by rw [on_start]; simp [he],
      fun hne => absurd he hne⟩
    rw [on_start]
    simp [he]
  · rcases hw : st.worker with _ | w
    · refine ⟨?_, fun _ _ => ?_, fun h => absurd h he, fun _ w hww => ?_⟩
      · rw [on_start]
        simp [he, hw]
      · rw [on_start]
        simp [he, hw]
      · exact absurd hww (by simp)
    · refine ⟨?_, fun _ hww => ?_, fun h => absurd h he, fun _ w' hww => ?_⟩
      · rw [on_start]
        simp [he, hw]
      · exact absurd hww (by simp)
      · rw [on_start]
        simp [he, hw]

theorem claim_C8_witness :
    (pyStrip ('a' :: 'b' :: []) ≠ [] ∧
        (⟨none, [], true, false, true⟩ : UIState).worker = none) ∧
      on_start ⟨none, [], true, false, true⟩ ('a' :: 'b' :: []) =
        ⟨some ('a' :: 'b' :: []), MSG_STARTING, false, true, false⟩ :=
  ⟨⟨by decide, rfl⟩,
    (claim_C8 ⟨none, [], true, false, true⟩ ('a' :: 'b' :: [])).2.1
      (by decide) rfl⟩

/-- C2: an attempt whose transport call returns a non-2xx status emits the
non-2xx status message, marks the cycle succeeded, and makes no further
attempts; any response at all (2xx or not) ends the attempt loop, so only
transport-level exceptions ever trigger a retry. -/
theorem claim_C2 (tr : Transport) (stopTime : Option Nat)
    (rem attempt t code : Nat) (body : List Char)
    (hs : stopFlag stopTime t = false)
    (hok : tr attempt = Except.ok (code, body)) :
    (¬(200 ≤ code ∧ code < 300) →
        deliveryGo tr stopTime (rem + 1) attempt t =
          ⟨t, true, [(t, Action.statusRejected code (displayBody body))],
            [attempt]⟩) ∧
      (deliveryGo tr stopTime (rem + 1) attempt t).success = true ∧
      (deliveryGo tr stopTime (rem + 1) attempt t).calls = [attempt] := by
  refine ⟨fun h2 => ?_, ?_, ?_⟩
  · rw [deliveryGo]
    simp [hs, hok, h2]
  · rw [deliveryGo]
    by_cases h2 : 200 ≤ code ∧ code < 300 <;> simp [hs, hok, h2]
  · rw [deliveryGo]
    by_cases h2 : 200 ≤ code ∧ code < 300 <;> simp [hs, hok, h2]

theorem claim_C2_witness :
    (stopFlag none 0 = false ∧ rejectTransport 1 = Except.ok (404, []) ∧
        ¬(200 ≤ 404 ∧ 404 < 300)) ∧
      deliveryGo rejectTransport none (2 + 1) 1 0 =
        ⟨0, true, [(0, Action.statusRejected 404 (displayBody []))], [1]⟩ :=
  ⟨⟨rfl, rfl, by decide⟩,
    (claim_C2 rejectTransport none 2 1 0 404 [] rfl rfl).1 (by decide)⟩

/-- C10: a cycle whose delivery starts (or, mid-delivery, continues) with
the stop flag already set emits the same total-failure status as the
all-retries-failed path and skips the countdown entirely; concretely, a
run whose first backoff wait is interrupted by cancellation ends with the
failure status and then the finish event, with no countdown tick. -/
theorem claim_C10 (tr : Transport) (s t : Nat) (e : List Char)
    (h : s ≤ t) :
    runCycle tr (some s) t = ([(t, Action.statusAllFailed)], t) ∧
      runWorker (fun _ _ => Except.error e) (some 1) 1 0 =
        some [(0, Action.statusError 1 (e.take 200)),
          (0, Action.backoffWait 1), (1, Action.statusAllFailed),
          (1, Action.workerDone)] := by
  have hs : stopFlag (some s) t = true := by simp [stopFlag]; omega
  constructor
  · rw [runCycle, deliveryPhase, show MAX_RETRIES = 2 + 1 from rfl, deliveryGo,
      if_pos hs]
    simp [countdownGo_stopped hs]
  · rw [runWorker, runLoop]
    rw [if_neg (by simp [stopFlag])]
    have hcyc : runCycle (fun _ => Except.error e) (some 1) 0 =
        ([(0, Action.statusError 1 (e.take 200)), (0, Action.backoffWait 1),
          (1, Action.statusAllFailed)], 1) := by
      rw [runCycle, deliveryPhase, show MAX_RETRIES = 2 + 1 from rfl,
        deliveryGo]
      rw [if_neg (by simp [stopFlag])]
      have hb : backoffGo (some 1) (backoffDelay 1) 0 = (1, 1) := by decide
      simp only [hb]
      rw [deliveryGo]
      rw [if_pos (by simp [stopFlag])]
      simp [countdownGo_stopped (show stopFlag (some 1) 1 = true by decide)]
    simp only [hcyc]
    rw [runLoop]
    rw [if_pos (by simp [stopFlag])]
    rfl

theorem claim_C10_witness :
    0 ≤ 0 ∧
      runCycle timeoutTransport (some 0) 0 =
        ([(0, Action.statusAllFailed)], 0) :=
  ⟨Nat.le_refl 0, (claim_C10 timeoutTransport 0 0 [] (Nat.le_refl 0)).1⟩

/-- With the stop event never set and every attempt a `TransportError`, the
delivery phase runs all three attempts, waiting 2, 4 and 8 seconds after
attempts 1, 2 and 3 respectively — including after the final attempt. -/
lemma delivery_all_errors (tr : Transport) (t : Nat) (e1 e2 e3 : List Char)
    (h1 : tr 1 = Except.error e1) (h2 : tr 2 = Except.error e2)
    (h3 : tr 3 = Except.error e3) :
    deliveryPhase tr none t =
      ⟨t + 14, false,
        [(t, Action.statusError 1 (e1.take 200)), (t, Action.backoffWait 2),
          (t + 2, Action.statusError 2 (e2.take 200)),
          (t + 2, Action.backoffWait 4),
          (t + 6, Action.statusError 3 (e3.take 200)),
          (t + 6, Action.backoffWait 8)],
        [1, 2, 3]⟩ := by
  have hb1 : backoffGo none (backoffDelay 1) t = (t + 2, 2) := by
    rw [backoffDelay_one, backoffGo_none]
  have hb2 : backoffGo none (backoffDelay 2) (t + 2) = (t + 6, 4) := by
    rw [backoffDelay_two, backoffGo_none]
  have hb3 : backoffGo none (backoffDelay 3) (t + 6) = (t + 14, 8) := by
    rw [backoffDelay_three, backoffGo_none]
  simp [deliveryPhase, MAX_RETRIES, deliveryGo, stopFlag, h1, h2, h3,
    hb1, hb2, hb3]

/-- C1 (counterexample): with every attempt a `TransportError` and no stop
request, the delivery phase performs three positive backoff waits — not
two — and the third (8 seconds) comes after the final attempt's failure
message, contradicting "no backoff wait is performed after the final
attempt". -/
theorem claim_C1_counterexample :
    posBackoffCount (deliveryPhase timeoutTransport none 0).actions ≠ 2 ∧
      posBackoffCount (deliveryPhase timeoutTransport none 0).actions = 3 ∧
      (deliveryPhase timeoutTransport none 0).actions =
        [(0, Action.statusError 1 "timeout".data), (0, Action.backoffWait 2),
          (2, Action.statusError 2 "timeout".data), (2, Action.backoffWait 4),
          (6, Action.statusError 3 "timeout".data),
          (6, Action.backoffWait 8)] := by
  refine ⟨by decide, by decide, by decide⟩

/-- C1 (amended): after a `TransportError` on attempt n the engine waits
out the backoff delay whether or not attempts remain, so in a cycle where
every attempt is a `TransportError` exactly three backoff waits occur —
2s and 4s between the attempts and a final 8s after the last attempt,
before the total-failure report. -/
theorem claim_C1_amended (tr : Transport) (t : Nat) (e1 e2 e3 : List Char)
    (h1 : tr 1 = Except.error e1) (h2 : tr 2 = Except.error e2)
    (h3 : tr 3 = Except.error e3) :
    backoffWaitsOf (deliveryPhase tr none t).actions = [2, 4, 8] ∧
      posBackoffCount (deliveryPhase tr none t).actions = 3 ∧
      (deliveryPhase tr none t).actions =
        [(t, Action.statusError 1 (e1.take 200)), (t, Action.backoffWait 2),
          (t + 2, Action.statusError 2 (e2.take 200)),
          (t + 2, Action.backoffWait 4),
          (t + 6, Action.statusError 3 (e3.take 200)),
          (t + 6, Action.backoffWait 8)] := by
  have hd := delivery_all_errors tr t e1 e2 e3 h1 h2 h3
  rw [hd]
  exact ⟨rfl, rfl, rfl⟩

theorem claim_C1_amended_witness :
    (timeoutTransport 1 = Except.error "timeout".data ∧
        timeoutTransport 2 = Except.error "timeout".data ∧
        timeoutTransport 3 = Except.error "timeout".data) ∧
      backoffWaitsOf (deliveryPhase timeoutTransport none 0).actions =
        [2, 4, 8] :=
  ⟨⟨rfl, rfl, rfl⟩,
    (claim_C1_amended timeoutTransport 0 _ _ _ rfl rfl rfl).1⟩

/-- The countdown trace built by `countdownGo_none` contains no action
satisfying a classifier that is false on every tick. -/
lemma countP_countdown_map (f : Nat × Action → Bool)
    (hf : ∀ tm n, f (tm, Action.countdownTick n) = false) (rem t : Nat) :
    ((List.range rem).map
        (fun i => (t + i, Action.countdownTick (rem - i)))).countP f = 0 := by
  rw [List.countP_eq_zero]
  intro a ha
  obtain ⟨i, _, rfl⟩ := List.mem_map.mp ha
  simp [hf]

/-- C5: when every attempt of a cycle is a `TransportError`, the cycle
emits the total-failure status exactly once, never a success or non-2xx
status, and still proceeds to a full interval countdown (the tick at 300
is emitted and the cycle ends 300 seconds after the delivery phase). -/
theorem claim_C5 (tr : Transport) (t : Nat) (e1 e2 e3 : List Char)
    (h1 : tr 1 = Except.error e1) (h2 : tr 2 = Except.error e2)
    (h3 : tr 3 = Except.error e3) :
    ((runCycle tr none t).1.countP fun p => isAllFailedA p.2) = 1 ∧
      ((runCycle tr none t).1.countP fun p => isSuccessA p.2) = 0 ∧
      ((runCycle tr none t).1.countP fun p => isRejectedA p.2) = 0 ∧
      (t + 14, Action.countdownTick INTERVAL) ∈ (runCycle tr none t).1 ∧
      (runCycle tr none t).2 = t + 14 + INTERVAL := by
  have hd := delivery_all_errors tr t e1 e2 e3 h1 h2 h3
  have hcy : runCycle tr none t =
      ([(t, Action.statusError 1 (e1.take 200)), (t, Action.backoffWait 2),
          (t + 2, Action.statusError 2 (e2.take 200)),
          (t + 2, Action.backoffWait 4),
          (t + 6, Action.statusError 3 (e3.take 200)),
          (t + 6, Action.backoffWait 8)] ++
        [(t + 14, Action.statusAllFailed)] ++
        (List.range INTERVAL).map
          (fun i => (t + 14 + i, Action.countdownTick (INTERVAL - i))),
        t + 14 + INTERVAL) := by
    rw [runCycle, hd, countdownGo_none]
    simp
  rw [hcy]
  refine ⟨?_, ?_, ?_, ?_, rfl⟩
  · rw [List.countP_append, List.countP_append,
      countP_countdown_map _ (fun _ _ => rfl)]
    rfl
  · rw [List.countP_append, List.countP_append,
      countP_countdown_map _ (fun _ _ => rfl)]
    rfl
  · rw [List.countP_append, List.countP_append,
      countP_countdown_map _ (fun _ _ => rfl)]
    rfl
  · refine List.mem_append.mpr (Or.inr (List.mem_map.mpr ⟨0, ?_, rfl⟩))
    exact List.mem_range.mpr (by decide)

theorem claim_C5_witness :
    (timeoutTransport 1 = Except.error "timeout".data ∧
        timeoutTransport 2 = Except.error "timeout".data ∧
        timeoutTransport 3 = Except.error "timeout".data) ∧
      ((runCycle timeoutTransport none 0).1.countP
          fun p => isAllFailedA p.2) = 1 :=
  ⟨⟨rfl, rfl, rfl⟩,
    (claim_C5 timeoutTransport 0 _ _ _ rfl rfl rfl).1⟩

/-- C4: if the transport returns a 2xx response on attempt k ≤ 3 (after
`TransportError`s on the earlier attempts), the delivery phase succeeds,
the transport is called exactly on attempts 1..k — never on k+1..3 — and
the whole cycle emits exactly one success status. -/
theorem claim_C4 (tr : Transport) (t k code : Nat) (body : List Char)
    (hk1 : 1 ≤ k) (hk3 : k ≤ 3)
    (hok : tr k = Except.ok (code, body))
    (h2a : 200 ≤ code) (h2b : code < 300)
    (hprev : ∀ j, 1 ≤ j → j < k → ∃ e, tr j = Except.error e) :
    (deliveryPhase tr none t).success = true ∧
      (deliveryPhase tr none t).calls = (List.range k).map (fun i => i + 1) ∧
      ((runCycle tr none t).1.countP fun p => isSuccessA p.2) = 1 := by
  interval_cases k
  · have hphase : deliveryPhase tr none t =
        ⟨t, true, [(t, Action.statusSuccess code (displayBody body))],
          [1]⟩ := by
      simp [deliveryPhase, MAX_RETRIES, deliveryGo, stopFlag, hok, h2a, h2b]
    refine ⟨by rw [hphase], by rw [hphase]; rfl, ?_⟩
    have hcy : (runCycle tr none t).1 =
        [(t, Action.statusSuccess code (displayBody body))] ++
          (List.range INTERVAL).map
            (fun i => (t + i, Action.countdownTick (INTERVAL - i))) := by
      rw [runCycle, hphase, countdownGo_none]
      simp
    rw [hcy, List.countP_append, countP_countdown_map _ (fun _ _ => rfl)]
    rfl
  · obtain ⟨e1, he1⟩ := hprev 1 (by omega) (by omega)
    have hb1 : backoffGo none (backoffDelay 1) t = (t + 2, 2) := by
      rw [backoffDelay_one, backoffGo_none]
    have hphase : deliveryPhase tr none t =
        ⟨t + 2, true,
          [(t, Action.statusError 1 (e1.take 200)), (t, Action.backoffWait 2),
            (t + 2, Action.statusSuccess code (displayBody body))],
          [1, 2]⟩ := by
      simp [deliveryPhase, MAX_RETRIES, deliveryGo, stopFlag, he1, hok, hb1,
        h2a, h2b]
    refine ⟨by rw [hphase], by rw [hphase]; rfl, ?_⟩
    have hcy : (runCycle tr none t).1 =
        [(t, Action.statusError 1 (e1.take 200)), (t, Action.backoffWait 2),
          (t + 2, Action.statusSuccess code (displayBody body))] ++
          (List.range INTERVAL).map
            (fun i => (t + 2 + i, Action.countdownTick (INTERVAL - i))) := by
      rw [runCycle, hphase, countdownGo_none]
      simp
    rw [hcy, List.countP_append, countP_countdown_map _ (fun _ _ => rfl)]
    rfl
  · obtain ⟨e1, he1⟩ := hprev 1 (by omega) (by omega)
    obtain ⟨e2, he2⟩ := hprev 2 (by omega) (by omega)
    have hb1 : backoffGo none (backoffDelay 1) t = (t + 2, 2) := by
      rw [backoffDelay_one, backoffGo_none]
    have hb2 : backoffGo none (backoffDelay 2) (t + 2) = (t + 6, 4) := by
      rw [backoffDelay_two, backoffGo_none]
    have hphase : deliveryPhase tr none t =
        ⟨t + 6, true,
          [(t, Action.statusError 1 (e1.take 200)), (t, Action.backoffWait 2),
            (t + 2, Action.statusError 2 (e2.take 200)),
            (t + 2, Action.backoffWait 4),
            (t + 6, Action.statusSuccess code (displayBody body))],
          [1, 2, 3]⟩ := by
      simp [deliveryPhase, MAX_RETRIES, deliveryGo, stopFlag, he1, he2, hok,
        hb1, hb2, h2a, h2b]
    refine ⟨by rw [hphase], by rw [hphase]; rfl, ?_⟩
    have hcy : (runCycle tr none t).1 =
        [(t, Action.statusError 1 (e1.take 200)), (t, Action.backoffWait 2),
          (t + 2, Action.statusError 2 (e2.take 200)),
          (t + 2, Action.backoffWait 4),
          (t + 6, Action.statusSuccess code (displayBody body))] ++
          (List.range INTERVAL).map
            (fun i => (t + 6 + i, Action.countdownTick (INTERVAL - i))) := by
      rw [runCycle, hphase, countdownGo_none]
      simp
    rw [hcy, List.countP_append, countP_countdown_map _ (fun _ _ => rfl)]
    rfl

theorem claim_C4_witness :
    (1 ≤ 1 ∧ 1 ≤ 3 ∧ okTransport 1 = Except.ok (200, []) ∧
        200 ≤ 200 ∧ 200 < 300) ∧
      ((deliveryPhase okTransport none 0).success = true ∧
        (deliveryPhase okTransport none 0).calls =
          (List.range 1).map (fun i => i + 1) ∧
        ((runCycle okTransport none 0).1.countP fun p => isSuccessA p.2) = 1) :=
  ⟨⟨by decide, by decide, rfl, by decide, by decide⟩,
    claim_C4 okTransport 0 1 200 [] (by decide) (by decide) rfl (by decide)
      (by decide) (fun j hj1 hj2 => absurd hj2 (by omega))⟩

/-- C6: whenever the stop event fires at second s, the run loop terminates
(some cycle-count fuel suffices), the finish event is emitted exactly
once — as the last action of the run — and every countdown tick of the
whole run was emitted strictly before second s, i.e. no tick follows the
point where the signal is observable. -/
theorem claim_C6 (tr : Nat → Transport) (s t0 : Nat) :
    ∃ fuel trace,
      runWorker tr (some s) fuel t0 = some trace ∧
        trace.countP (fun p => isDoneA p.2) = 1 ∧
        (trace.map Prod.snd).getLast? = some Action.workerDone ∧
        ∀ p ∈ trace, isTickA p.2 = true → p.1 < s := by
  have htot := runLoop_total tr s s 0 t0 (by omega)
  rcases hrec : runLoop tr (some s) s 0 t0 with _ | p
  · rw [hrec] at htot
    exact absurd htot (by simp)
  · refine ⟨s, p.1 ++ [(p.2, Action.workerDone)], ?_, ?_, ?_, ?_⟩
    · rw [runWorker, hrec]
    · rw [List.countP_append]
      have h0 : p.1.countP (fun q => isDoneA q.2) = 0 :=
        List.countP_eq_zero.mpr fun q hq => by
          have hmem := (runLoop_mem tr (some s) s 0 t0 p hrec q hq).1
          simp_all
      rw [h0]
      rfl
    · rw [List.map_append, show List.map Prod.snd [(p.2, Action.workerDone)] =
        [Action.workerDone] from rfl, List.getLast?_concat]
    · intro q hq htick
      rcases List.mem_append.mp hq with hq | hq
      · have hmem := (runLoop_mem tr (some s) s 0 t0 p hrec q hq).2 htick
        simp [stopFlag] at hmem
        omega
      · have hq' : q = (p.2, Action.workerDone) := by simpa using hq
        rw [hq'] at htick
        exact absurd htick (by simp [isTickA])

end PingMon
